import Mathlib

/-!
Verification of dinglebit/httputil.

A shallow embedding of httputil.go (AccessControlHandler, ResponseWriterStats,
RequestBodyStats, LogHandler) and of the two tests of httputil_test.go.

Modelling conventions.

* Go's int is a signed integer of 32 or 64 bits (IntSize). Values are carried in
  Int and every addition the code makes on an int is followed by wrapInt, the
  reduction into the range of the type.
* A Go interface value (http.ResponseWriter, io.ReadCloser) is a table of
  methods over an arbitrary state type, together with the current state of the
  object. Besides the methods of the interface the table lists the further
  methods of the dynamic type (WriteString, Flush, Hijack, ReadFrom, WriteTo and
  so on), which a handler reaches by a type assertion. The header map returned
  by Header() is a component of the object. A nil r.Body is the value none.
* Every object behind an interface keeps the list of calls it has received
  (calls). The list is specification state only: no method reads it.
* The body of a ServeHTTP(w, r) is a tree of calls on w and r.Body (Prog);
  dynamic dispatch is the choice of the environment it is run in. A call on a
  nil interface or of a method the value lacks panics: the body does not return.
* time.Now() is an input: the two readings are parameters of LogHandler.
* A handler reads the fields of the request and does not assign to them, as
  net/http asks of handlers.
-/

namespace httputil

/-! ## Go's int -/

/-- The two sizes Go's int can have. -/
inductive IntSize where
  | w32
  | w64
deriving DecidableEq

/-- Number of values of an int: 2^32 or 2^64. -/
def IntSize.modulus : IntSize → Int
  | IntSize.w32 => 4294967296
  | IntSize.w64 => 18446744073709551616

/-- The largest int: 2^31 - 1 or 2^63 - 1. -/
def maxInt : IntSize → Int
  | IntSize.w32 => 2147483647
  | IntSize.w64 => 9223372036854775807

/-- The smallest int: -2^31 or -2^63. -/
def minInt : IntSize → Int
  | IntSize.w32 => -2147483648
  | IntSize.w64 => -9223372036854775808

/-- The int a mathematical result is stored as: the value of the same residue
in the range from minInt to maxInt (two's complement wrap-around). -/
def wrapInt (sz : IntSize) (x : Int) : Int :=
  (x - minInt sz) % sz.modulus + minInt sz

/-- The value lies in the range of int. -/
def fitsInt (sz : IntSize) (x : Int) : Prop := minInt sz ≤ x ∧ x ≤ maxInt sz

/-! ## Values of the standard library -/

/-- Go's error: none is nil. -/
abbrev GoError := Option String

/-- The error value io.EOF. -/
def EOF : String := "EOF"

/-- The bytes of a Go string literal (all literals of the tests are ASCII). -/
def goBytes (s : String) : List UInt8 := s.toList.map (fun c => c.toNat.toUInt8)

/-- An http.Header: every key with its list of values; an absent key holds []. -/
abbrev Header := String → List String

/-- Go Header.Set: replaces the values of the key by the single value given. -/
def Header.Set (key value : String) (h : Header) : Header :=
  fun k => if k = key then [value] else h k

/-- Go Header.Add: appends the value to the values of the key. -/
def Header.Add (key value : String) (h : Header) : Header :=
  fun k => if k = key then h k ++ [value] else h k

/-- Go Header.Get: the first value of the key, or the empty string. -/
def Header.Get (key : String) (h : Header) : String := (h key).headD ""

/-- The header map of a new recorder. -/
def Header.empty : Header := fun _ => []

/-! ## The interfaces http.ResponseWriter and io.ReadCloser -/

/-- A call received by a response sink, with what it returned; extra is a call
of a method outside http.ResponseWriter. -/
inductive SinkEvent where
  | header
  | writeHeader (code : Int)
  | write (data : List UInt8) (n : Int) (err : GoError)
  | extra (method : String) (arg : List UInt8) (out : List UInt8) (n : Int) (err : GoError)
deriving DecidableEq

/-- A call received by a body stream, with what it returned; extra is a call of
a method outside io.ReadCloser. -/
inductive BodyEvent where
  | read (buflen : Nat) (stored : List UInt8) (n : Int) (err : GoError)
  | close (err : GoError)
  | extra (method : String) (arg : List UInt8) (out : List UInt8) (n : Int) (err : GoError)
deriving DecidableEq

/-- The method table of a value used as http.ResponseWriter, with private state
σ. All methods may inspect and change the header map. Extra gives, by name, the
methods the dynamic type has besides those of the interface (none when it lacks
the method); such a method takes bytes and returns bytes, a count and an
error. -/
structure ResponseWriter (σ : Type) where
  WriteHeader : Int → Header × σ → Header × σ
  Write : List UInt8 → Header × σ → (Int × GoError) × (Header × σ)
  Extra : String →
    Option (List UInt8 → Header × σ → (List UInt8 × Int × GoError) × (Header × σ))

/-- A live response sink: its header map, its private state, the calls so far. -/
structure Conn (σ : Type) where
  hdr : Header
  st : σ
  calls : List SinkEvent

/-- The call w.Header() on the sink. -/
def ResponseWriter.callHeader {σ : Type} (_W : ResponseWriter σ) (w : Conn σ) : Conn σ :=
  { w with calls := w.calls ++ [SinkEvent.header] }

/-- The call w.WriteHeader(code) on the sink. -/
def ResponseWriter.callWriteHeader {σ : Type} (W : ResponseWriter σ) (code : Int)
    (w : Conn σ) : Conn σ :=
  let p := W.WriteHeader code (w.hdr, w.st)
  { hdr := p.1, st := p.2, calls := w.calls ++ [SinkEvent.writeHeader code] }

/-- The call w.Write(data) on the sink. -/
def ResponseWriter.callWrite {σ : Type} (W : ResponseWriter σ) (data : List UInt8)
    (w : Conn σ) : (Int × GoError) × Conn σ :=
  let p := W.Write data (w.hdr, w.st)
  (p.1, { hdr := p.2.1, st := p.2.2,
          calls := w.calls ++ [SinkEvent.write data p.1.1 p.1.2] })

/-- The call of a further method of the sink, reached through a type assertion;
none when the sink has no such method. -/
def ResponseWriter.callExtra {σ : Type} (W : ResponseWriter σ) (method : String)
    (arg : List UInt8) (w : Conn σ) : Option ((List UInt8 × Int × GoError) × Conn σ) :=
  match W.Extra method with
  | none => none
  | some f =>
    let p := f arg (w.hdr, w.st)
    some (p.1, { hdr := p.2.1, st := p.2.2,
                 calls := w.calls ++ [SinkEvent.extra method arg p.1.1 p.1.2.1 p.1.2.2] })

/-- The method table of a value used as io.ReadCloser, with private state ρ.
Read is given the length of the buffer and returns the bytes it stored, n and
err. Extra gives, by name, the further methods of the dynamic type. -/
structure ReadCloser (ρ : Type) where
  Read : Nat → ρ → (List UInt8 × Int × GoError) × ρ
  Close : ρ → GoError × ρ
  Extra : String → Option (List UInt8 → ρ → (List UInt8 × Int × GoError) × ρ)

/-- A live body stream: its private state and the calls so far. -/
structure Stream (ρ : Type) where
  st : ρ
  calls : List BodyEvent

/-- The call r.Read(data) on the stream, buflen = len(data). -/
def ReadCloser.callRead {ρ : Type} (B : ReadCloser ρ) (buflen : Nat) (b : Stream ρ) :
    (List UInt8 × Int × GoError) × Stream ρ :=
  let p := B.Read buflen b.st
  (p.1, { st := p.2, calls := b.calls ++ [BodyEvent.read buflen p.1.1 p.1.2.1 p.1.2.2] })

/-- The call r.Close() on the stream. -/
def ReadCloser.callClose {ρ : Type} (B : ReadCloser ρ) (b : Stream ρ) : GoError × Stream ρ :=
  let p := B.Close b.st
  (p.1, { st := p.2, calls := b.calls ++ [BodyEvent.close p.1] })

/-- The call of a further method of the stream, reached through a type
assertion; none when the stream has no such method. -/
def ReadCloser.callExtra {ρ : Type} (B : ReadCloser ρ) (method : String)
    (arg : List UInt8) (b : Stream ρ) : Option ((List UInt8 × Int × GoError) × Stream ρ) :=
  match B.Extra method with
  | none => none
  | some f =>
    let p := f arg b.st
    some (p.1, { st := p.2,
                 calls := b.calls ++ [BodyEvent.extra method arg p.1.1 p.1.2.1 p.1.2.2] })

/-! ## httputil.go: ResponseWriterStats -/

/-- The struct ResponseWriterStats. -/
structure ResponseWriterStats (σ : Type) where
  w : Conn σ
  ResponseCode : Int
  Total : Int

/-- Go NewResponseWriterStats: a ResponseWriterStats with w set, ResponseCode 200
and Total left at its zero value. -/
def NewResponseWriterStats {σ : Type} (w : Conn σ) : ResponseWriterStats σ :=
  { w := w, ResponseCode := 200, Total := 0 }

/-- Go ResponseWriterStats.Header: return c.w.Header(). -/
def ResponseWriterStats.Header {σ : Type} (W : ResponseWriter σ)
    (c : ResponseWriterStats σ) : Header × ResponseWriterStats σ :=
  let w1 := W.callHeader c.w
  (w1.hdr, { c with w := w1 })

/-- Go ResponseWriterStats.WriteHeader: c.ResponseCode = h; c.w.WriteHeader(h). -/
def ResponseWriterStats.WriteHeader {σ : Type} (W : ResponseWriter σ)
    (c : ResponseWriterStats σ) (h : Int) : ResponseWriterStats σ :=
  let c1 := { c with ResponseCode := h }
  { c1 with w := W.callWriteHeader h c1.w }

/-- Go ResponseWriterStats.Write: c.Total += len(data); return c.w.Write(data).
The sum is an int of size sz. -/
def ResponseWriterStats.Write {σ : Type} (sz : IntSize) (W : ResponseWriter σ)
    (c : ResponseWriterStats σ) (data : List UInt8) :
    (Int × GoError) × ResponseWriterStats σ :=
  let c1 := { c with Total := wrapInt sz (c.Total + (data.length : Int)) }
  let p := W.callWrite data c1.w
  (p.1, { c1 with w := p.2 })

/-! ## httputil.go: RequestBodyStats -/

/-- The struct RequestBodyStats; the field r is none when it holds a nil
io.ReadCloser. -/
structure RequestBodyStats (ρ : Type) where
  r : Option (Stream ρ)
  Total : Int

/-- Go NewRequestBodyStats: a RequestBodyStats with r set and Total left at its
zero value. -/
def NewRequestBodyStats {ρ : Type} (r : Option (Stream ρ)) : RequestBodyStats ρ :=
  { r := r, Total := 0 }

/-- Go RequestBodyStats.Close: return r.r.Close(). The call panics on a nil r.r:
the result is none. -/
def RequestBodyStats.Close {ρ : Type} (B : ReadCloser ρ) (r : RequestBodyStats ρ) :
    Option (GoError × RequestBodyStats ρ) :=
  match r.r with
  | none => none
  | some b =>
    let p := B.callClose b
    some (p.1, { r with r := some p.2 })

/-- Go RequestBodyStats.Read: n, err := r.r.Read(data); r.Total += n; return n, err.
The sum is an int of size sz. The call panics on a nil r.r: the result is
none. -/
def RequestBodyStats.Read {ρ : Type} (sz : IntSize) (B : ReadCloser ρ)
    (r : RequestBodyStats ρ) (buflen : Nat) :
    Option ((List UInt8 × Int × GoError) × RequestBodyStats ρ) :=
  match r.r with
  | none => none
  | some b =>
    let p := B.callRead buflen b
    let n := p.1.2.1
    let err := p.1.2.2
    some ((p.1.1, n, err), { r := some p.2, Total := wrapInt sz (r.Total + n) })

/-! ## Handlers -/

/-- The fields of http.Request the code uses; β is what r.Body holds. -/
structure Request (β : Type) where
  RemoteAddr : String
  Proto : String
  Method : String
  URL : String
  Body : β

/-- The body of a ServeHTTP(w, r), as the calls it makes on w, on the header
map w.Header() returned, and on r.Body; every call hands its results to the
rest of the body.

* abort is a body that never returns to its caller.
* wHas m is the test whether the dynamic type of w has the method m, by a type
  assertion of w to an interface with that method; wCall m calls it.
* bodyNil is the test r.Body == nil; bodyHas and bodyCall are to r.Body what
  wHas and wCall are to w. -/
inductive Prog where
  | ret : Prog
  | abort : Prog
  | header : Prog → Prog
  | hdrGet : (Header → Prog) → Prog
  | hdrMod : (Header → Header) → Prog → Prog
  | writeHeader : Int → Prog → Prog
  | write : List UInt8 → (Int → GoError → Prog) → Prog
  | read : Nat → (List UInt8 → Int → GoError → Prog) → Prog
  | close : (GoError → Prog) → Prog
  | wHas : String → (Bool → Prog) → Prog
  | wCall : String → List UInt8 → (List UInt8 → Int → GoError → Prog) → Prog
  | bodyNil : (Bool → Prog) → Prog
  | bodyHas : String → (Bool → Prog) → Prog
  | bodyCall : String → List UInt8 → (List UInt8 → Int → GoError → Prog) → Prog

/-- An http.Handler: the body it runs for a request. -/
abbrev Handler := Request Unit → Prog

/-- The fields of a request, without the body. -/
def Request.info {β : Type} (r : Request β) : Request Unit :=
  { RemoteAddr := r.RemoteAddr, Proto := r.Proto, Method := r.Method, URL := r.URL,
    Body := () }

/-- What w and r.Body are bound to when a body runs: the methods the calls of
a Prog are dispatched to, over the state S of the objects. A call that panics
gives none. -/
structure Env (S : Type) where
  header : S → S
  hdr : S → Header
  hdrMod : (Header → Header) → S → S
  writeHeader : Int → S → S
  write : List UInt8 → S → (Int × GoError) × S
  read : Nat → S → Option ((List UInt8 × Int × GoError) × S)
  close : S → Option (GoError × S)
  wHas : String → S → Bool
  wCall : String → List UInt8 → S → Option ((List UInt8 × Int × GoError) × S)
  bodyNil : S → Bool
  bodyHas : String → S → Bool
  bodyCall : String → List UInt8 → S → Option ((List UInt8 × Int × GoError) × S)

/-- Runs a body in an environment; none when the body never returns. -/
def exec {S : Type} (E : Env S) : Prog → S → Option S
  | Prog.ret, s => some s
  | Prog.abort, _ => none
  | Prog.header k, s => exec E k (E.header s)
  | Prog.hdrGet k, s => exec E (k (E.hdr s)) s
  | Prog.hdrMod f k, s => exec E k (E.hdrMod f s)
  | Prog.writeHeader c k, s => exec E k (E.writeHeader c s)
  | Prog.write d k, s =>
      let res := E.write d s
      exec E (k res.1.1 res.1.2) res.2
  | Prog.read n k, s =>
      match E.read n s with
      | none => none
      | some res => exec E (k res.1.1 res.1.2.1 res.1.2.2) res.2
  | Prog.close k, s =>
      match E.close s with
      | none => none
      | some res => exec E (k res.1) res.2
  | Prog.wHas m k, s => exec E (k (E.wHas m s)) s
  | Prog.wCall m arg k, s =>
      match E.wCall m arg s with
      | none => none
      | some res => exec E (k res.1.1 res.1.2.1 res.1.2.2) res.2
  | Prog.bodyNil k, s => exec E (k (E.bodyNil s)) s
  | Prog.bodyHas m k, s => exec E (k (E.bodyHas m s)) s
  | Prog.bodyCall m arg k, s =>
      match E.bodyCall m arg s with
      | none => none
      | some res => exec E (k res.1.1 res.1.2.1 res.1.2.2) res.2

/-- The environment in which w is the real sink and r.Body the real stream (or
nil). -/
def directEnv {σ ρ : Type} (W : ResponseWriter σ) (B : ReadCloser ρ) :
    Env (Conn σ × Option (Stream ρ)) where
  header := fun s => (W.callHeader s.1, s.2)
  hdr := fun s => s.1.hdr
  hdrMod := fun f s => ({ s.1 with hdr := f s.1.hdr }, s.2)
  writeHeader := fun c s => (W.callWriteHeader c s.1, s.2)
  write := fun d s => ((W.callWrite d s.1).1, ((W.callWrite d s.1).2, s.2))
  read := fun n s =>
    match s.2 with
    | none => none
    | some b => some ((B.callRead n b).1, (s.1, some (B.callRead n b).2))
  close := fun s =>
    match s.2 with
    | none => none
    | some b => some ((B.callClose b).1, (s.1, some (B.callClose b).2))
  wHas := fun m _ => (W.Extra m).isSome
  wCall := fun m arg s =>
    match W.callExtra m arg s.1 with
    | none => none
    | some p => some (p.1, (p.2, s.2))
  bodyNil := fun s => s.2.isNone
  bodyHas := fun m s => s.2.isSome && (B.Extra m).isSome
  bodyCall := fun m arg s =>
    match s.2 with
    | none => none
    | some b =>
      match B.callExtra m arg b with
      | none => none
      | some p => some (p.1, (s.1, some p.2))

/-- The environment LogHandler sets up: w is a *ResponseWriterStats and
r.Body a *RequestBodyStats. The header map is the one Header() returns,
that of the wrapped sink. The two types have the methods of httputil.go and no
others, and r.Body is never nil. -/
def statsEnv {σ ρ : Type} (sz : IntSize) (W : ResponseWriter σ) (B : ReadCloser ρ) :
    Env (ResponseWriterStats σ × RequestBodyStats ρ) where
  header := fun s => ((ResponseWriterStats.Header W s.1).2, s.2)
  hdr := fun s => s.1.w.hdr
  hdrMod := fun f s => ({ s.1 with w := { s.1.w with hdr := f s.1.w.hdr } }, s.2)
  writeHeader := fun c s => (ResponseWriterStats.WriteHeader W s.1 c, s.2)
  write := fun d s =>
    ((ResponseWriterStats.Write sz W s.1 d).1,
     ((ResponseWriterStats.Write sz W s.1 d).2, s.2))
  read := fun n s =>
    match RequestBodyStats.Read sz B s.2 n with
    | none => none
    | some p => some (p.1, (s.1, p.2))
  close := fun s =>
    match RequestBodyStats.Close B s.2 with
    | none => none
    | some p => some (p.1, (s.1, p.2))
  wHas := fun _ _ => false
  wCall := fun _ _ _ => none
  bodyNil := fun _ => false
  bodyHas := fun _ _ => false
  bodyCall := fun _ _ _ => none

/-! ## httputil.go: AccessControlHandler -/

/-- The header key AccessControlHandler sets. -/
def allowOrigin : String := "Access-Control-Allow-Origin"

/-- Go AccessControlHandler(h, access).ServeHTTP(w, r):
w.Header().Set("Access-Control-Allow-Origin", access); h.ServeHTTP(w, r). -/
def AccessControlHandler {σ ρ : Type} (W : ResponseWriter σ) (B : ReadCloser ρ)
    (h : Handler) (access : String) (w : Conn σ) (r : Request (Option (Stream ρ))) :
    Option (Conn σ × Option (Stream ρ)) :=
  let E := directEnv W B
  let s1 := E.hdrMod (Header.Set allowOrigin access) (E.header (w, r.Body))
  exec E (h r.info) s1

/-! ## httputil.go: LogHandler -/

/-- An argument of a logging call. -/
inductive LogArg where
  | str (s : String)
  | int (n : Int)
  | dur (d : Int)
deriving DecidableEq

/-- One call l.Infof(format, args...). -/
structure LogCall where
  format : String
  args : List LogArg
deriving DecidableEq

/-- The logger l, as the calls it has received. -/
abbrev Logger := List LogCall

/-- Go l.Infof(format, args...): the logger records the call. -/
def Infof (l : Logger) (format : String) (args : List LogArg) : Logger :=
  l ++ [{ format := format, args := args }]

/-- What an invocation of the handler of LogHandler leaves behind: the sink,
the request (whose body is now the wrapper) and the logger. -/
structure Served (σ ρ : Type) where
  w : Conn σ
  r : Request (RequestBodyStats ρ)
  l : Logger

/-- Go LogHandler(h, l).ServeHTTP(w, r); start and now are the two readings of
time.Now(). The result is none when h.ServeHTTP never returns. -/
def LogHandler {σ ρ : Type} (sz : IntSize) (W : ResponseWriter σ) (B : ReadCloser ρ)
    (h : Handler) (l : Logger) (start now : Int) (w : Conn σ)
    (r : Request (Option (Stream ρ))) : Option (Served σ ρ) :=
  let out := NewResponseWriterStats w
  let in0 := NewRequestBodyStats r.Body
  match exec (statsEnv sz W B) (h r.info) (out, in0) with
  | none => none
  | some (out1, in1) =>
    let diff := now - start
    some { w := out1.w,
           r := { RemoteAddr := r.RemoteAddr, Proto := r.Proto, Method := r.Method,
                  URL := r.URL, Body := in1 },
           l := Infof l "%v %v %v %v %v %v %v %v"
                  [LogArg.str r.RemoteAddr, LogArg.str r.Proto, LogArg.str r.Method,
                   LogArg.str r.URL, LogArg.int out1.ResponseCode, LogArg.dur diff,
                   LogArg.int in1.Total, LogArg.int out1.Total] }

/-! ## Sequences of calls on the wrappers -/

/-- A call on a ResponseWriterStats. -/
inductive RWCall where
  | Header
  | WriteHeader (h : Int)
  | Write (data : List UInt8)
deriving DecidableEq

/-- Makes one call on a ResponseWriterStats, dropping what the call returns. -/
def ResponseWriterStats.call {σ : Type} (sz : IntSize) (W : ResponseWriter σ)
    (c : ResponseWriterStats σ) : RWCall → ResponseWriterStats σ
  | RWCall.Header => (ResponseWriterStats.Header W c).2
  | RWCall.WriteHeader h => ResponseWriterStats.WriteHeader W c h
  | RWCall.Write data => (ResponseWriterStats.Write sz W c data).2

/-- Makes a sequence of calls on a ResponseWriterStats, first to last. -/
def ResponseWriterStats.calls {σ : Type} (sz : IntSize) (W : ResponseWriter σ)
    (c : ResponseWriterStats σ) (cs : List RWCall) : ResponseWriterStats σ :=
  cs.foldl (ResponseWriterStats.call sz W) c

/-- A call on a RequestBodyStats; Read carries the length of its buffer. -/
inductive RBCall where
  | Read (buflen : Nat)
  | Close
deriving DecidableEq

/-- Makes one call on a RequestBodyStats, dropping what the call returns; none
when the call panics. -/
def RequestBodyStats.call {ρ : Type} (sz : IntSize) (B : ReadCloser ρ)
    (r : RequestBodyStats ρ) : RBCall → Option (RequestBodyStats ρ)
  | RBCall.Read buflen => (RequestBodyStats.Read sz B r buflen).map (fun p => p.2)
  | RBCall.Close => (RequestBodyStats.Close B r).map (fun p => p.2)

/-- Makes a sequence of calls on a RequestBodyStats, first to last; none when
one of them panics. -/
def RequestBodyStats.calls {ρ : Type} (sz : IntSize) (B : ReadCloser ρ)
    (r : RequestBodyStats ρ) : List RBCall → Option (RequestBodyStats ρ)
  | [] => some r
  | x :: cs =>
    match RequestBodyStats.call sz B r x with
    | none => none
    | some r1 => RequestBodyStats.calls sz B r1 cs

/-! ## Measures of a list of calls -/

/-- Sum of the lengths of the slices passed to the Write calls of a sequence. -/
def requestedLen : List RWCall → Int
  | [] => 0
  | RWCall.Write data :: cs => (data.length : Int) + requestedLen cs
  | _ :: cs => requestedLen cs

/-- Arguments of the WriteHeader calls of a sequence, in order. -/
def writeHeaderArgs : List RWCall → List Int
  | [] => []
  | RWCall.WriteHeader h :: cs => h :: writeHeaderArgs cs
  | _ :: cs => writeHeaderArgs cs

/-- Sum of the lengths of the slices the sink was asked to write. -/
def writtenLen : List SinkEvent → Int
  | [] => 0
  | SinkEvent.write data _ _ :: es => (data.length : Int) + writtenLen es
  | _ :: es => writtenLen es

/-- Sum of the byte counts the Write calls of the sink returned. -/
def acceptedLen : List SinkEvent → Int
  | [] => 0
  | SinkEvent.write _ n _ :: es => n + acceptedLen es
  | _ :: es => acceptedLen es

/-- Status codes the sink was given through WriteHeader, in order. -/
def statusCodes : List SinkEvent → List Int
  | [] => []
  | SinkEvent.writeHeader code :: es => code :: statusCodes es
  | _ :: es => statusCodes es

/-- Status a response ends with: the last code set, 200 when none was set. -/
def finalStatus (es : List SinkEvent) : Int := (statusCodes es).getLastD 200

/-- Sum of the byte counts the Read calls of the stream returned. -/
def readLen : List BodyEvent → Int
  | [] => 0
  | BodyEvent.read _ _ n _ :: es => n + readLen es
  | _ :: es => readLen es

/-- The calls a stream has received; none for a nil stream. -/
def streamCalls {ρ : Type} (b : Option (Stream ρ)) : List BodyEvent :=
  match b with
  | none => []
  | some s => s.calls

/-! ## Kinds of bodies -/

/-- The body uses w and r.Body through the methods of http.ResponseWriter and
io.ReadCloser only: it makes no type assertion on either, calls no further
method and does not compare r.Body with nil. -/
def Prog.plain : Prog → Prop
  | Prog.ret => True
  | Prog.abort => True
  | Prog.header k => Prog.plain k
  | Prog.hdrGet k => ∀ h, Prog.plain (k h)
  | Prog.hdrMod _ k => Prog.plain k
  | Prog.writeHeader _ k => Prog.plain k
  | Prog.write _ k => ∀ n err, Prog.plain (k n err)
  | Prog.read _ k => ∀ stored n err, Prog.plain (k stored n err)
  | Prog.close k => ∀ err, Prog.plain (k err)
  | Prog.wHas _ _ => False
  | Prog.wCall _ _ _ => False
  | Prog.bodyNil _ => False
  | Prog.bodyHas _ _ => False
  | Prog.bodyCall _ _ _ => False

/-- The body never changes the values of the header key: every change it makes
to the header map leaves the key as it was. -/
def Prog.keeps (key : String) : Prog → Prop
  | Prog.ret => True
  | Prog.abort => True
  | Prog.header k => Prog.keeps key k
  | Prog.hdrGet k => ∀ h, Prog.keeps key (k h)
  | Prog.hdrMod f k => (∀ h : Header, f h key = h key) ∧ Prog.keeps key k
  | Prog.writeHeader _ k => Prog.keeps key k
  | Prog.write _ k => ∀ n err, Prog.keeps key (k n err)
  | Prog.read _ k => ∀ stored n err, Prog.keeps key (k stored n err)
  | Prog.close k => ∀ err, Prog.keeps key (k err)
  | Prog.wHas _ k => ∀ ok, Prog.keeps key (k ok)
  | Prog.wCall _ _ k => ∀ out n err, Prog.keeps key (k out n err)
  | Prog.bodyNil k => ∀ ok, Prog.keeps key (k ok)
  | Prog.bodyHas _ k => ∀ ok, Prog.keeps key (k ok)
  | Prog.bodyCall _ _ k => ∀ out n err, Prog.keeps key (k out n err)

/-- The methods of the sink never change the values of the header key. -/
def ResponseWriter.keeps {σ : Type} (W : ResponseWriter σ) (key : String) : Prop :=
  (∀ code s, (W.WriteHeader code s).1 key = s.1 key) ∧
  (∀ data s, (W.Write data s).2.1 key = s.1 key) ∧
  (∀ m f, W.Extra m = some f → ∀ arg s, (f arg s).2.1 key = s.1 key)

/-- The environment of a body that is handed the real sink and the real stream
as values with the methods of http.ResponseWriter and io.ReadCloser alone: every
type assertion fails, r.Body is not nil, and the calls go to the sink and the
stream. -/
def plainEnv {σ ρ : Type} (W : ResponseWriter σ) (B : ReadCloser ρ) :
    Env (Conn σ × Option (Stream ρ)) :=
  { directEnv W B with
    wHas := fun _ _ => false
    wCall := fun _ _ _ => none
    bodyNil := fun _ => false
    bodyHas := fun _ _ => false
    bodyCall := fun _ _ _ => none }

/-! ## httputil_test.go and the standard library it uses -/

/-- State of an httptest.ResponseRecorder: Code, Body, Flushed and
wroteHeader. -/
structure Recorder where
  Code : Int
  Body : List UInt8
  Flushed : Bool
  wroteHeader : Bool
deriving DecidableEq

/-- The recorder httptest.NewRecorder returns: code 200, empty body. -/
def NewRecorder : Conn Recorder :=
  { hdr := Header.empty,
    st := { Code := 200, Body := [], Flushed := false, wroteHeader := false },
    calls := [] }

/-- The recorder after the header has been sent with code 200 if it had not
been sent. -/
def Recorder.sent (t : Recorder) : Recorder :=
  if t.wroteHeader then t else { t with Code := 200, wroteHeader := true }

/-- Methods of httptest.ResponseRecorder: WriteHeader keeps the first code;
Write sends the header with code 200 when none was sent, appends to Body and
returns len(buf) and nil. Besides the interface the type has WriteString, which
does for a string what Write does for a slice, and Flush, which sends the header
and sets Flushed. The Content-Type that some versions of the recorder store in
the header map at the first write is left out; no statement below reads that
key. -/
def recorder : ResponseWriter Recorder where
  WriteHeader := fun code s =>
    if s.2.wroteHeader then s else (s.1, { s.2 with Code := code, wroteHeader := true })
  Write := fun buf s =>
    (((buf.length : Int), none), (s.1, { s.2.sent with Body := s.2.sent.Body ++ buf }))
  Extra := fun m =>
    if m = "WriteString" then
      some (fun str s =>
        (([], (str.length : Int), none),
         (s.1, { s.2.sent with Body := s.2.sent.Body ++ str })))
    else if m = "Flush" then
      some (fun _ s => (([], 0, none), (s.1, { s.2.sent with Flushed := true })))
    else none

/-- Methods of ioutil.NopCloser over a bytes.Buffer; the state is the unread
part. Read of an empty buffer returns 0 and io.EOF (0 and nil for an empty
slice), otherwise it copies what fits; Close returns nil. The nopCloser of
ioutil has no other method. -/
def bufferBody : ReadCloser (List UInt8) where
  Read := fun buflen b =>
    if b = [] then
      (if buflen = 0 then (([], 0, none), b) else (([], 0, some EOF), b))
    else ((b.take buflen, ((b.take buflen).length : Int), none), b.drop buflen)
  Close := fun b => (none, b)
  Extra := fun _ => none

/-- Body of ioutil.ReadAll(r.Body) followed by k: reads into 512 free bytes
until Read returns an error, and hands over the bytes read, with a nil error
when the error was io.EOF. The first argument bounds the number of Read calls;
a longer loop is a body that has not returned. -/
def ReadAll : Nat → List UInt8 → (List UInt8 → GoError → Prog) → Prog
  | 0, _, _ => Prog.abort
  | fuel + 1, acc, k =>
    Prog.read 512 (fun stored n err =>
      match err with
      | none => ReadAll fuel (acc ++ stored.take n.toNat) k
      | some e =>
        if e = EOF then k (acc ++ stored.take n.toNat) none
        else k (acc ++ stored.take n.toNat) (some e))

/-- Body of io.WriteString(w, s) followed by k: w.WriteString(s) when the
dynamic type of w has the method WriteString, w.Write([]byte(s)) otherwise. -/
def WriteString (s : String) (k : Prog) : Prog :=
  Prog.wHas "WriteString" (fun ok =>
    match ok with
    | true => Prog.wCall "WriteString" (goBytes s) (fun _ _ _ => k)
    | false => Prog.write (goBytes s) (fun _ _ => k))

/-- The handler testHandler; fuel bounds the reads of ioutil.ReadAll. -/
def testHandler (fuel : Nat) : Handler := fun _ =>
  ReadAll fuel [] (fun body err =>
    match err with
    | some e =>
      Prog.writeHeader 500 (Prog.write (goBytes e) (fun _ _ => Prog.ret))
    | none =>
      Prog.close (fun _ =>
        Prog.writeHeader 400 (Prog.header (Prog.hdrGet (fun h =>
          WriteString (Header.Get "Host" h)
            (WriteString " - echo: " (Prog.write body (fun _ _ => Prog.ret))))))))

/-- The request of TestLogging: http.NewRequest("POST", "/", data) with data
holding "hello, server". -/
def testRequest : Request (Option (Stream (List UInt8))) :=
  { RemoteAddr := "", Proto := "HTTP/1.1", Method := "POST", URL := "/",
    Body := some { st := goBytes "hello, server", calls := [] } }

/-- The handler of TestAccessControlHandler: io.WriteString(w, "hello, world"). -/
def helloHandler : Handler := fun _ => WriteString "hello, world" Prog.ret

/-- The request of TestAccessControlHandler: GET / with an empty body. -/
def getRequest : Request (Option (Stream (List UInt8))) :=
  { RemoteAddr := "192.0.2.1:1234", Proto := "HTTP/1.1", Method := "GET", URL := "/",
    Body := some { st := [], calls := [] } }

/-! ## Further sinks, streams and delegates -/

/-- A sink that takes at most two bytes of a slice and reports io.ErrShortWrite
when it took fewer than it was given; the state is what it has taken. It has
the methods of http.ResponseWriter only. -/
def shortSink : ResponseWriter (List UInt8) where
  WriteHeader := fun _ s => s
  Write := fun data s =>
    ((((data.take 2).length : Int),
      if (data.take 2).length < data.length then some "short write" else none),
     (s.1, s.2 ++ data.take 2))
  Extra := fun _ => none

/-- A new connection to the short-writing sink. -/
def shortConn : Conn (List UInt8) := { hdr := Header.empty, st := [], calls := [] }

/-- A stream without end that fills every buffer it is given with zero bytes
and returns the length of the buffer and a nil error. -/
def zeroBody : ReadCloser Unit where
  Read := fun buflen s => ((List.replicate buflen 0, (buflen : Int), none), s)
  Close := fun s => (none, s)
  Extra := fun _ => none

/-- A delegate like testHandler that calls w.Write where testHandler calls
io.WriteString. -/
def echoHandler (fuel : Nat) : Handler := fun _ =>
  ReadAll fuel [] (fun body err =>
    match err with
    | some e =>
      Prog.writeHeader 500 (Prog.write (goBytes e) (fun _ _ => Prog.ret))
    | none =>
      Prog.close (fun _ =>
        Prog.writeHeader 400
          (Prog.write (goBytes " - echo: ") (fun _ _ =>
            Prog.write body (fun _ _ => Prog.ret)))))

/-- A delegate that streams when w is an http.Flusher: it writes "stream" and
flushes, and writes "plain" when the type assertion fails. -/
def flushHandler : Handler := fun _ =>
  Prog.wHas "Flush" (fun ok =>
    match ok with
    | true =>
      Prog.write (goBytes "stream") (fun _ _ =>
        Prog.wCall "Flush" [] (fun _ _ _ => Prog.ret))
    | false => Prog.write (goBytes "plain") (fun _ _ => Prog.ret))

/-- A delegate that sets the allow-origin header itself. -/
def ownOriginHandler : Handler := fun _ =>
  Prog.header (Prog.hdrMod (Header.Set "Access-Control-Allow-Origin" "https://example.org")
    Prog.ret)

/-- A delegate that marks the response with X-Seen the first time it sees it and
adds a second allow-origin value when the mark is already there. -/
def seenHandler : Handler := fun _ =>
  Prog.header (Prog.hdrGet (fun h =>
    if Header.Get "X-Seen" h = "" then Prog.hdrMod (Header.Set "X-Seen" "1") Prog.ret
    else Prog.hdrMod (Header.Add "Access-Control-Allow-Origin" "https://example.org")
      Prog.ret))

/-! ## The access log of a sequence of invocations -/

/-- The line of the access log for a request with the given status, elapsed
time, request bytes and response bytes. -/
def logLine {β : Type} (r : Request β) (status diff inBytes outBytes : Int) : LogCall :=
  { format := "%v %v %v %v %v %v %v %v",
    args := [LogArg.str r.RemoteAddr, LogArg.str r.Proto, LogArg.str r.Method,
             LogArg.str r.URL, LogArg.int status, LogArg.dur diff, LogArg.int inBytes,
             LogArg.int outBytes] }

/-- One invocation of a handler: the sink and the request it is given and the
two readings of the clock. -/
structure Invocation (σ ρ : Type) where
  w : Conn σ
  r : Request (Option (Stream ρ))
  start : Int
  now : Int

/-- Invokes the handler LogHandler(h, l) once for every invocation of the list,
in order; the logger is shared by all of them. -/
def serveAll {σ ρ : Type} (sz : IntSize) (W : ResponseWriter σ) (B : ReadCloser ρ)
    (h : Handler) : Logger → List (Invocation σ ρ) → Option Logger
  | l, [] => some l
  | l, inv :: rest =>
    match LogHandler sz W B h l inv.start inv.now inv.w inv.r with
    | none => none
    | some res => serveAll sz W B h res.l rest

/-- The line one invocation is expected to log, from the calls the delegate
makes during this invocation alone, counted from status 200 and 0 bytes in
ints of size sz. -/
def ownLine {σ ρ : Type} (sz : IntSize) (W : ResponseWriter σ) (B : ReadCloser ρ)
    (h : Handler) (inv : Invocation σ ρ) : Option LogCall :=
  (exec (plainEnv W B) (h inv.r.info) (inv.w, inv.r.Body)).map (fun s =>
    logLine inv.r (finalStatus (s.1.calls.drop inv.w.calls.length)) (inv.now - inv.start)
      (wrapInt sz (readLen ((streamCalls s.2).drop (streamCalls inv.r.Body).length)))
      (wrapInt sz (writtenLen (s.1.calls.drop inv.w.calls.length))))

/-- The lines a list of invocations is expected to log, each from its own calls;
none when one of the delegates does not return. -/
def ownLines {σ ρ : Type} (sz : IntSize) (W : ResponseWriter σ) (B : ReadCloser ρ)
    (h : Handler) : List (Invocation σ ρ) → Option (List LogCall)
  | [] => some []
  | inv :: rest =>
    match ownLine sz W B h inv, ownLines sz W B h rest with
    | some x, some xs => some (x :: xs)
    | _, _ => none

/-! ## Lemmas on wrap-around -/

theorem wrapInt_add_left (sz : IntSize) (a b : Int) :
    wrapInt sz (wrapInt sz a + b) = wrapInt sz (a + b) := by
  cases sz <;> simp only [wrapInt, minInt, IntSize.modulus] <;> omega

theorem wrapInt_of_fits (sz : IntSize) (x : Int) (h : fitsInt sz x) : wrapInt sz x = x := by
  cases sz <;> simp only [fitsInt, minInt, maxInt] at h <;>
    simp only [wrapInt, minInt, IntSize.modulus] <;> omega

theorem wrapInt_fits (sz : IntSize) (x : Int) : fitsInt sz (wrapInt sz x) := by
  cases sz <;> simp only [fitsInt, wrapInt, minInt, maxInt, IntSize.modulus] <;> omega

theorem wrapInt_idem (sz : IntSize) (x : Int) : wrapInt sz (wrapInt sz x) = wrapInt sz x :=
  wrapInt_of_fits sz _ (wrapInt_fits sz x)

theorem wrapInt_zero (sz : IntSize) : wrapInt sz 0 = 0 := by
  cases sz <;> rfl

/-! ## Lemmas on the measures -/

theorem getLastD_cons_int (a d : Int) (l : List Int) :
    (a :: l).getLast?.getD d = l.getLast?.getD a := by
  cases l with
  | nil => simp
  | cons b t => simp [List.getLast?_cons_cons, List.getLast?_eq_getLast]

theorem requestedLen_nonneg (cs : List RWCall) : 0 ≤ requestedLen cs := by
  induction cs with
  | nil => simp [requestedLen]
  | cons x cs ih =>
    cases x with
    | Header => simpa [requestedLen] using ih
    | WriteHeader h => simpa [requestedLen] using ih
    | Write data =>
      simp only [requestedLen]
      omega

theorem requestedLen_take_le (cs : List RWCall) (k : Nat) :
    requestedLen (cs.take k) ≤ requestedLen (cs.take (k + 1)) := by
  induction cs generalizing k with
  | nil => simp
  | cons x cs ih =>
    cases k with
    | zero =>
      have h := requestedLen_nonneg [x]
      simpa [requestedLen] using h
    | succ k =>
      have h := ih k
      cases x with
      | Header => simpa [requestedLen] using h
      | WriteHeader c => simpa [requestedLen] using h
      | Write data => simpa [requestedLen] using h

theorem requestedLen_take_le_all (cs : List RWCall) (k : Nat) :
    requestedLen (cs.take k) ≤ requestedLen cs := by
  induction cs generalizing k with
  | nil => simp
  | cons x cs ih =>
    cases k with
    | zero =>
      have h := requestedLen_nonneg (x :: cs)
      simpa [requestedLen] using h
    | succ k =>
      have h := ih k
      cases x with
      | Header => simpa [requestedLen] using h
      | WriteHeader c => simpa [requestedLen] using h
      | Write data => simpa [requestedLen] using h

/-- What a sequence of calls on a ResponseWriterStats does to the wrapper and to
the sink under it. -/
theorem ResponseWriterStats.calls_effect {σ : Type} (sz : IntSize) (W : ResponseWriter σ)
    (cs : List RWCall) (c : ResponseWriterStats σ) (hc : wrapInt sz c.Total = c.Total) :
    ∃ evs, (ResponseWriterStats.calls sz W c cs).w.calls = c.w.calls ++ evs ∧
      (ResponseWriterStats.calls sz W c cs).Total
        = wrapInt sz (c.Total + requestedLen cs) ∧
      (ResponseWriterStats.calls sz W c cs).ResponseCode
        = (writeHeaderArgs cs).getLastD c.ResponseCode ∧
      writtenLen evs = requestedLen cs ∧
      statusCodes evs = writeHeaderArgs cs := by
  induction cs generalizing c with
  | nil => exact ⟨[], by simp [ResponseWriterStats.calls, requestedLen,
      writtenLen, statusCodes, writeHeaderArgs, hc]⟩
  | cons x cs ih =>
    cases x with
    | Header =>
      obtain ⟨evs, h1, h2, h3, h4, h5⟩ :=
        ih (ResponseWriterStats.call sz W c RWCall.Header) hc
      simp only [ResponseWriterStats.calls, List.foldl_cons] at h1 h2 h3 ⊢
      refine ⟨SinkEvent.header :: evs, ?_, ?_, ?_, ?_, ?_⟩
      · rw [h1]; simp [ResponseWriterStats.call, ResponseWriterStats.Header,
          ResponseWriter.callHeader]
      · rw [h2]; simp [ResponseWriterStats.call, ResponseWriterStats.Header, requestedLen]
      · rw [h3]; simp [ResponseWriterStats.call, ResponseWriterStats.Header, writeHeaderArgs]
      · simpa [writtenLen, requestedLen] using h4
      · simpa [statusCodes, writeHeaderArgs] using h5
    | WriteHeader code =>
      obtain ⟨evs, h1, h2, h3, h4, h5⟩ :=
        ih (ResponseWriterStats.call sz W c (RWCall.WriteHeader code)) hc
      simp only [ResponseWriterStats.calls, List.foldl_cons] at h1 h2 h3 ⊢
      refine ⟨SinkEvent.writeHeader code :: evs, ?_, ?_, ?_, ?_, ?_⟩
      · rw [h1]; simp [ResponseWriterStats.call, ResponseWriterStats.WriteHeader,
          ResponseWriter.callWriteHeader]
      · rw [h2]; simp [ResponseWriterStats.call, ResponseWriterStats.WriteHeader,
          requestedLen]
      · rw [h3]; simp [ResponseWriterStats.call, ResponseWriterStats.WriteHeader,
          writeHeaderArgs, getLastD_cons_int]
      · simpa [writtenLen, requestedLen] using h4
      · simpa [statusCodes, writeHeaderArgs] using h5
    | Write data =>
      obtain ⟨evs, h1, h2, h3, h4, h5⟩ :=
        ih (ResponseWriterStats.call sz W c (RWCall.Write data)) (wrapInt_idem sz _)
      simp only [ResponseWriterStats.calls, List.foldl_cons] at h1 h2 h3 ⊢
      refine ⟨SinkEvent.write data (W.Write data (c.w.hdr, c.w.st)).1.1
        (W.Write data (c.w.hdr, c.w.st)).1.2 :: evs, ?_, ?_, ?_, ?_, ?_⟩
      · rw [h1]; simp [ResponseWriterStats.call, ResponseWriterStats.Write,
          ResponseWriter.callWrite]
      · rw [h2]
        simp only [ResponseWriterStats.call, ResponseWriterStats.Write, requestedLen]
        rw [wrapInt_add_left, add_assoc]
      · rw [h3]; simp [ResponseWriterStats.call, ResponseWriterStats.Write, writeHeaderArgs]
      · simpa [writtenLen, requestedLen] using h4
      · simpa [statusCodes, writeHeaderArgs] using h5

/-- What a sequence of calls on a RequestBodyStats over a stream does to the
wrapper and to the stream. -/
theorem RequestBodyStats.calls_reads {ρ : Type} (sz : IntSize) (B : ReadCloser ρ)
    (cs : List RBCall) (b : Stream ρ) (total : Int) (ht : wrapInt sz total = total) :
    ∃ fin evs, RequestBodyStats.calls sz B { r := some b, Total := total } cs = some fin ∧
      streamCalls fin.r = b.calls ++ evs ∧ fin.r.isSome = true ∧
      fin.Total = wrapInt sz (total + readLen evs) ∧
      evs.length = cs.length := by
  induction cs generalizing b total with
  | nil => exact ⟨_, [], rfl, by simp [streamCalls], rfl, by simp [readLen, ht], rfl⟩
  | cons x cs ih =>
    cases x with
    | Read buflen =>
      obtain ⟨fin, evs, h0, h1, h2, h3, h4⟩ :=
        ih (B.callRead buflen b).2 (wrapInt sz (total + (B.callRead buflen b).1.2.1))
          (wrapInt_idem sz _)
      refine ⟨fin, BodyEvent.read buflen (B.Read buflen b.st).1.1 (B.Read buflen b.st).1.2.1
        (B.Read buflen b.st).1.2.2 :: evs, ?_, ?_, h2, ?_, ?_⟩
      · simpa [RequestBodyStats.calls, RequestBodyStats.call, RequestBodyStats.Read]
          using h0
      · rw [h1]; simp [ReadCloser.callRead]
      · rw [h3, wrapInt_add_left]
        simp [ReadCloser.callRead, readLen, add_assoc]
      · simp [h4]
    | Close =>
      obtain ⟨fin, evs, h0, h1, h2, h3, h4⟩ := ih (B.callClose b).2 total ht
      refine ⟨fin, BodyEvent.close (B.Close b.st).1 :: evs, ?_, ?_, h2, ?_, ?_⟩
      · simpa [RequestBodyStats.calls, RequestBodyStats.call, RequestBodyStats.Close]
          using h0
      · rw [h1]; simp [ReadCloser.callClose]
      · rw [h3]; simp [readLen]
      · simp [h4]

/-! ## Bodies run against the wrappers -/

/-- Running a body against the wrappers drives the sink and the stream under
them exactly as running it against the sink and the stream seen through the two
interfaces alone. -/
theorem exec_statsEnv_proj {σ ρ : Type} (sz : IntSize) (W : ResponseWriter σ)
    (B : ReadCloser ρ) (p : Prog) (c : ResponseWriterStats σ) (r : RequestBodyStats ρ) :
    (exec (statsEnv sz W B) p (c, r)).map (fun s => (s.1.w, s.2.r))
      = exec (plainEnv W B) p (c.w, r.r) := by
  induction p generalizing c r with
  | ret => rfl
  | abort => rfl
  | header k ih =>
    simpa [exec, statsEnv, plainEnv, directEnv, ResponseWriterStats.Header] using ih _ _
  | hdrGet k ih => simpa [exec, statsEnv, plainEnv, directEnv] using ih _ _ _
  | hdrMod f k ih => simpa [exec, statsEnv, plainEnv, directEnv] using ih _ _
  | writeHeader code k ih =>
    simpa [exec, statsEnv, plainEnv, directEnv, ResponseWriterStats.WriteHeader]
      using ih _ _
  | write d k ih =>
    simpa [exec, statsEnv, plainEnv, directEnv, ResponseWriterStats.Write]
      using ih _ _ _ _
  | read n k ih =>
    cases hr : r.r with
    | none => simp [exec, statsEnv, plainEnv, directEnv, RequestBodyStats.Read, hr]
    | some b =>
      simpa [exec, statsEnv, plainEnv, directEnv, RequestBodyStats.Read, hr]
        using ih _ _ _ _ _
  | close k ih =>
    cases hr : r.r with
    | none => simp [exec, statsEnv, plainEnv, directEnv, RequestBodyStats.Close, hr]
    | some b =>
      simpa [exec, statsEnv, plainEnv, directEnv, RequestBodyStats.Close, hr]
        using ih _ _ _
  | wHas m k ih => simpa [exec, statsEnv, plainEnv, directEnv] using ih _ _ _
  | wCall m arg k ih => simp [exec, statsEnv, plainEnv, directEnv]
  | bodyNil k ih => simpa [exec, statsEnv, plainEnv, directEnv] using ih _ _ _
  | bodyHas m k ih => simpa [exec, statsEnv, plainEnv, directEnv] using ih _ _ _
  | bodyCall m arg k ih => simp [exec, statsEnv, plainEnv, directEnv]

/-- A body that uses the two interfaces alone runs on the real sink and stream
as it runs on them seen through the interfaces. -/
theorem exec_plain {σ ρ : Type} (W : ResponseWriter σ) (B : ReadCloser ρ)
    (p : Prog) (hp : p.plain) (s : Conn σ × Option (Stream ρ)) :
    exec (plainEnv W B) p s = exec (directEnv W B) p s := by
  induction p generalizing s with
  | ret => rfl
  | abort => rfl
  | header k ih => simpa [exec, plainEnv] using ih hp _
  | hdrGet k ih => simpa [exec, plainEnv] using ih _ (hp _) _
  | hdrMod f k ih => simpa [exec, plainEnv] using ih hp _
  | writeHeader code k ih => simpa [exec, plainEnv] using ih hp _
  | write d k ih => simpa [exec, plainEnv] using ih _ _ (hp _ _) _
  | read n k ih =>
    simp only [exec, plainEnv]
    cases (directEnv W B).read n s with
    | none => rfl
    | some res => exact ih _ _ _ (hp _ _ _) _
  | close k ih =>
    simp only [exec, plainEnv]
    cases (directEnv W B).close s with
    | none => rfl
    | some res => exact ih _ (hp _) _
  | wHas m k ih => exact absurd hp (by simp [Prog.plain])
  | wCall m arg k ih => exact absurd hp (by simp [Prog.plain])
  | bodyNil k ih => exact absurd hp (by simp [Prog.plain])
  | bodyHas m k ih => exact absurd hp (by simp [Prog.plain])
  | bodyCall m arg k ih => exact absurd hp (by simp [Prog.plain])

/-- The counters of the wrappers after a body has run, in terms of the calls the
sink and the stream received meanwhile. -/
theorem exec_statsEnv_stats {σ ρ : Type} (sz : IntSize) (W : ResponseWriter σ)
    (B : ReadCloser ρ) (p : Prog) (c : ResponseWriterStats σ) (r : RequestBodyStats ρ)
    (hc : wrapInt sz c.Total = c.Total) (hr : wrapInt sz r.Total = r.Total)
    (s : ResponseWriterStats σ × RequestBodyStats ρ)
    (hs : exec (statsEnv sz W B) p (c, r) = some s) :
    ∃ evs bevs, s.1.w.calls = c.w.calls ++ evs ∧
      streamCalls s.2.r = streamCalls r.r ++ bevs ∧
      s.1.Total = wrapInt sz (c.Total + writtenLen evs) ∧
      s.1.ResponseCode = (statusCodes evs).getLastD c.ResponseCode ∧
      s.2.Total = wrapInt sz (r.Total + readLen bevs) := by
  induction p generalizing c r with
  | ret =>
    simp only [exec, Option.some.injEq] at hs
    subst hs
    exact ⟨[], [], by simp [writtenLen, statusCodes, readLen, hc, hr]⟩
  | abort => simp [exec] at hs
  | header k ih =>
    obtain ⟨evs, bevs, h1, h2, h3, h4, h5⟩ := ih _ _ (by exact hc) (by exact hr) hs
    refine ⟨SinkEvent.header :: evs, bevs, ?_, h2, ?_, ?_, h5⟩
    · rw [h1]; simp [statsEnv, ResponseWriterStats.Header, ResponseWriter.callHeader]
    · rw [h3]; simp [statsEnv, ResponseWriterStats.Header, writtenLen]
    · rw [h4]; simp [statsEnv, ResponseWriterStats.Header, statusCodes]
  | hdrGet k ih => exact ih _ _ _ (by exact hc) (by exact hr) hs
  | hdrMod f k ih =>
    obtain ⟨evs, bevs, h1, h2, h3, h4, h5⟩ := ih _ _ (by exact hc) (by exact hr) hs
    exact ⟨evs, bevs, h1, h2, h3, h4, h5⟩
  | writeHeader code k ih =>
    obtain ⟨evs, bevs, h1, h2, h3, h4, h5⟩ := ih _ _ (by exact hc) (by exact hr) hs
    refine ⟨SinkEvent.writeHeader code :: evs, bevs, ?_, h2, ?_, ?_, h5⟩
    · rw [h1]; simp [statsEnv, ResponseWriterStats.WriteHeader,
        ResponseWriter.callWriteHeader]
    · rw [h3]; simp [statsEnv, ResponseWriterStats.WriteHeader, writtenLen]
    · rw [h4]; simp [statsEnv, ResponseWriterStats.WriteHeader, statusCodes,
        getLastD_cons_int]
  | write d k ih =>
    obtain ⟨evs, bevs, h1, h2, h3, h4, h5⟩ :=
      ih _ _ _ _ (by exact wrapInt_idem sz (c.Total + (d.length : Int))) (by exact hr) hs
    refine ⟨SinkEvent.write d (W.Write d (c.w.hdr, c.w.st)).1.1
      (W.Write d (c.w.hdr, c.w.st)).1.2 :: evs, bevs, ?_, h2, ?_, ?_, h5⟩
    · rw [h1]; simp [statsEnv, ResponseWriterStats.Write, ResponseWriter.callWrite]
    · rw [h3]
      simp only [statsEnv, ResponseWriterStats.Write, writtenLen]
      rw [wrapInt_add_left, add_assoc]
    · rw [h4]; simp [statsEnv, ResponseWriterStats.Write, statusCodes]
  | read n k ih =>
    obtain ⟨rr, rt⟩ := r
    cases rr with
    | none => simp [exec, statsEnv, RequestBodyStats.Read] at hs
    | some b =>
      obtain ⟨evs, bevs, h1, h2, h3, h4, h5⟩ :=
        ih _ _ _ _ _ (by exact hc)
          (by exact wrapInt_idem sz (rt + (B.callRead n b).1.2.1)) hs
      refine ⟨evs, BodyEvent.read n (B.Read n b.st).1.1 (B.Read n b.st).1.2.1
        (B.Read n b.st).1.2.2 :: bevs, h1, ?_, h3, h4, ?_⟩
      · rw [h2]; simp [streamCalls, ReadCloser.callRead]
      · rw [h5, wrapInt_add_left]
        simp [ReadCloser.callRead, readLen, add_assoc]
  | close k ih =>
    obtain ⟨rr, rt⟩ := r
    cases rr with
    | none => simp [exec, statsEnv, RequestBodyStats.Close] at hs
    | some b =>
      obtain ⟨evs, bevs, h1, h2, h3, h4, h5⟩ :=
        ih _ _ _ (by exact hc) (by exact hr) hs
      refine ⟨evs, BodyEvent.close (B.Close b.st).1 :: bevs, h1, ?_, h3, h4, ?_⟩
      · rw [h2]; simp [streamCalls, ReadCloser.callClose]
      · rw [h5]; simp [readLen]
  | wHas m k ih => exact ih _ _ _ (by exact hc) (by exact hr) hs
  | wCall m arg k ih => simp [exec, statsEnv] at hs
  | bodyNil k ih => exact ih _ _ _ (by exact hc) (by exact hr) hs
  | bodyHas m k ih => exact ih _ _ _ (by exact hc) (by exact hr) hs
  | bodyCall m arg k ih => simp [exec, statsEnv] at hs

/-- The access log after an invocation: nothing when the delegate does not
return, otherwise one more line, computed from the calls the delegate made. -/
theorem LogHandler_log {σ ρ : Type} (sz : IntSize) (W : ResponseWriter σ)
    (B : ReadCloser ρ) (h : Handler) (l : Logger) (start now : Int) (w : Conn σ)
    (r : Request (Option (Stream ρ))) :
    (LogHandler sz W B h l start now w r).map (fun res => res.l)
      = (exec (plainEnv W B) (h r.info) (w, r.Body)).map (fun s =>
          l ++ [logLine r (finalStatus (s.1.calls.drop w.calls.length)) (now - start)
                  (wrapInt sz
                    (readLen ((streamCalls s.2).drop (streamCalls r.Body).length)))
                  (wrapInt sz (writtenLen (s.1.calls.drop w.calls.length)))]) := by
  have hp := exec_statsEnv_proj sz W B (h r.info) (NewResponseWriterStats w)
    (NewRequestBodyStats r.Body)
  have hst := exec_statsEnv_stats sz W B (h r.info) (NewResponseWriterStats w)
    (NewRequestBodyStats r.Body) (wrapInt_zero sz) (wrapInt_zero sz)
  simp only [NewResponseWriterStats, NewRequestBodyStats] at hp hst
  rw [← hp]
  unfold LogHandler
  simp only [NewResponseWriterStats, NewRequestBodyStats]
  cases hx : exec (statsEnv sz W B) (h r.info)
      ({ w := w, ResponseCode := 200, Total := 0 }, { r := r.Body, Total := 0 }) with
  | none => rfl
  | some s =>
    obtain ⟨evs, bevs, h1, h2, h3, h4, h5⟩ := hst s hx
    simp only [zero_add] at h1 h2 h3 h4 h5
    simp [Infof, logLine, finalStatus, h1, h2, h3, h4, h5]

/-- A body that keeps a header key, run on a sink that keeps it, returns with the
values the key had when the body started. -/
theorem exec_keeps {σ ρ : Type} (W : ResponseWriter σ) (B : ReadCloser ρ) (key : String)
    (hW : W.keeps key) (p : Prog) (hp : p.keeps key) (s t : Conn σ × Option (Stream ρ))
    (hs : exec (directEnv W B) p s = some t) : t.1.hdr key = s.1.hdr key := by
  induction p generalizing s with
  | ret =>
    simp only [exec, Option.some.injEq] at hs
    rw [← hs]
  | abort => simp [exec] at hs
  | header k ih =>
    rw [ih hp _ hs]; simp [directEnv, ResponseWriter.callHeader]
  | hdrGet k ih => exact ih _ (hp _) _ hs
  | hdrMod f k ih =>
    rw [ih hp.2 _ hs]; simp [directEnv, hp.1]
  | writeHeader code k ih =>
    rw [ih hp _ hs]; simp [directEnv, ResponseWriter.callWriteHeader, hW.1]
  | write d k ih =>
    rw [ih _ _ (hp _ _) _ hs]; simp [directEnv, ResponseWriter.callWrite, hW.2.1]
  | read n k ih =>
    simp only [exec] at hs
    cases hb : s.2 with
    | none => simp [directEnv, hb] at hs
    | some b =>
      simp only [directEnv, hb] at hs
      rw [ih _ _ _ (hp _ _ _) _ hs]
  | close k ih =>
    simp only [exec] at hs
    cases hb : s.2 with
    | none => simp [directEnv, hb] at hs
    | some b =>
      simp only [directEnv, hb] at hs
      rw [ih _ (hp _) _ hs]
  | wHas m k ih => exact ih _ (hp _) _ hs
  | wCall m arg k ih =>
    simp only [exec] at hs
    cases hf : W.Extra m with
    | none => simp [directEnv, ResponseWriter.callExtra, hf] at hs
    | some f =>
      simp only [directEnv, ResponseWriter.callExtra, hf] at hs
      rw [ih _ _ _ (hp _ _ _) _ hs]
      exact hW.2.2 m f hf arg (s.1.hdr, s.1.st)
  | bodyNil k ih => exact ih _ (hp _) _ hs
  | bodyHas m k ih => exact ih _ (hp _) _ hs
  | bodyCall m arg k ih =>
    simp only [exec] at hs
    cases hb : s.2 with
    | none => simp [directEnv, hb] at hs
    | some b =>
      cases hf : B.Extra m with
      | none => simp [directEnv, ReadCloser.callExtra, hb, hf] at hs
      | some f =>
        simp only [directEnv, ReadCloser.callExtra, hb, hf] at hs
        rw [ih _ _ _ (hp _ _ _) _ hs]

/-- The header after an invocation of the handler of AccessControlHandler whose
delegate and sink keep the allow-origin header. -/
theorem AccessControlHandler_keeps {σ ρ : Type} (W : ResponseWriter σ) (B : ReadCloser ρ)
    (h : Handler) (access : String) (w : Conn σ) (r : Request (Option (Stream ρ)))
    (s : Conn σ × Option (Stream ρ)) (hW : W.keeps allowOrigin)
    (hh : (h r.info).keeps allowOrigin)
    (hs : AccessControlHandler W B h access w r = some s) :
    s.1.hdr allowOrigin = [access] := by
  unfold AccessControlHandler at hs
  rw [exec_keeps W B allowOrigin hW _ hh _ _ hs]
  simp [directEnv, ResponseWriter.callHeader, Header.Set]

/-- The log of a list of invocations is the log before them followed by the
line of each invocation. -/
theorem serveAll_eq {σ ρ : Type} (sz : IntSize) (W : ResponseWriter σ) (B : ReadCloser ρ)
    (h : Handler) (invs : List (Invocation σ ρ)) (l : Logger) :
    serveAll sz W B h l invs = (ownLines sz W B h invs).map (fun lines => l ++ lines) := by
  induction invs generalizing l with
  | nil => simp [serveAll, ownLines]
  | cons inv rest ih =>
    have hl := LogHandler_log sz W B h l inv.start inv.now inv.w inv.r
    simp only [serveAll, ownLines, ownLine]
    cases hL : LogHandler sz W B h l inv.start inv.now inv.w inv.r with
    | none =>
      rw [hL] at hl
      cases hx : exec (plainEnv W B) (h inv.r.info) (inv.w, inv.r.Body) with
      | none => simp
      | some x => rw [hx] at hl; simp at hl
    | some res =>
      rw [hL] at hl
      cases hx : exec (plainEnv W B) (h inv.r.info) (inv.w, inv.r.Body) with
      | none => rw [hx] at hl; simp at hl
      | some x =>
        rw [hx] at hl
        simp only [Option.map_some', Option.some.injEq] at hl
        simp only [Option.map_some']
        rw [ih res.l, hl]
        cases ownLines sz W B h rest <;> simp

/-- The recorder of the tests never changes its header map. -/
theorem recorder_keeps (key : String) : recorder.keeps key := by
  refine ⟨?_, ?_, ?_⟩
  · intro code s
    simp only [recorder]
    split <;> rfl
  · intro data s
    rfl
  · intro m f hf arg s
    simp only [recorder] at hf
    split at hf
    · simp only [Option.some.injEq] at hf
      rw [← hf]
    · split at hf
      · simp only [Option.some.injEq] at hf
        rw [← hf]
      · simp at hf

/-- The delegate of TestAccessControlHandler makes no change to the header map. -/
theorem helloHandler_keeps (key : String) (r : Request Unit) :
    (helloHandler r).keeps key := by
  intro ok
  cases ok <;> simp [Prog.keeps]

/-- The body of ioutil.ReadAll uses the two interfaces alone when what follows
it does. -/
theorem ReadAll_plain (fuel : Nat) (acc : List UInt8) (k : List UInt8 → GoError → Prog)
    (hk : ∀ body err, (k body err).plain) : (ReadAll fuel acc k).plain := by
  induction fuel generalizing acc with
  | zero => simp [ReadAll, Prog.plain]
  | succ fuel ih =>
    intro stored n err
    cases err with
    | none => exact ih _
    | some e =>
      simp only []
      split <;> exact hk _ _

/-- The delegate echoHandler uses the two interfaces alone. -/
theorem echoHandler_plain (fuel : Nat) (r : Request Unit) : (echoHandler fuel r).plain := by
  apply ReadAll_plain
  intro body err
  cases err <;> simp [Prog.plain]

/-- The 22 bytes TestLogging writes are in the range of a 64-bit int. -/
theorem test_writes_fit :
    fitsInt IntSize.w64
      (requestedLen [RWCall.WriteHeader 400, RWCall.Header, RWCall.Write (goBytes ""),
        RWCall.Write (goBytes " - echo: "), RWCall.Write (goBytes "hello, server")]) := by
  constructor <;> simp [requestedLen, goBytes, minInt, maxInt]

/-! ## The claims -/

/-- C1, the code at the failing input: one Write of the five bytes of "hello"
through a new ResponseWriterStats to a sink that takes two of them and returns
2 and io.ErrShortWrite leaves Total at 5, while the sum of the counts the sink
returned is 2. -/
theorem C1_total_is_not_accepted (sz : IntSize) :
    (ResponseWriterStats.Write sz shortSink (NewResponseWriterStats shortConn)
        [104, 101, 108, 108, 111]).1 = (2, some "short write") ∧
    (ResponseWriterStats.calls sz shortSink (NewResponseWriterStats shortConn)
        [RWCall.Write [104, 101, 108, 108, 111]]).Total = 5 ∧
    (ResponseWriterStats.calls sz shortSink (NewResponseWriterStats shortConn)
        [RWCall.Write [104, 101, 108, 108, 111]]).w.calls.drop shortConn.calls.length
      = [SinkEvent.write [104, 101, 108, 108, 111] 2 (some "short write")] ∧
    acceptedLen
      ((ResponseWriterStats.calls sz shortSink (NewResponseWriterStats shortConn)
        [RWCall.Write [104, 101, 108, 108, 111]]).w.calls.drop shortConn.calls.length)
      = 2 := by
  cases sz <;> exact ⟨rfl, rfl, rfl, rfl⟩

/-- C2, as the code behaves: a sequence of Read and Close calls on a new
RequestBodyStats over a stream makes every call on the stream, once, and leaves
Total, which starts at 0, at the sum of the counts n the Reads of the stream
returned, wrapped around as an int: at the sum itself when the sum lies in the
range of int. -/
theorem C2_read_total {ρ : Type} (sz : IntSize) (B : ReadCloser ρ) (b : Stream ρ)
    (cs : List RBCall) :
    (NewRequestBodyStats (some b)).Total = 0 ∧
    ∃ fin, RequestBodyStats.calls sz B (NewRequestBodyStats (some b)) cs = some fin ∧
      ((streamCalls fin.r).drop b.calls.length).length = cs.length ∧
      fin.Total = wrapInt sz (readLen ((streamCalls fin.r).drop b.calls.length)) ∧
      (fitsInt sz (readLen ((streamCalls fin.r).drop b.calls.length)) →
        fin.Total = readLen ((streamCalls fin.r).drop b.calls.length)) := by
  obtain ⟨fin, evs, h0, h1, _, h3, h4⟩ :=
    RequestBodyStats.calls_reads sz B cs b 0 (wrapInt_zero sz)
  refine ⟨rfl, fin, h0, ?_, ?_, ?_⟩
  · rw [h1, List.drop_left, h4]
  · rw [h1, List.drop_left, h3, zero_add]
  · intro hfit
    rw [h1, List.drop_left] at hfit ⊢
    rw [h3, zero_add, wrapInt_of_fits sz _ hfit]

/-- C2, witness: the reads of TestLogging, two Reads into 512 bytes and a Close
on the buffer holding "hello, server"; the sum 13 is in the range of int. -/
theorem C2_read_total_witness :
    fitsInt IntSize.w64 13 ∧
    ∃ fin, RequestBodyStats.calls IntSize.w64 bufferBody
        (NewRequestBodyStats (some { st := goBytes "hello, server", calls := [] }))
        [RBCall.Read 512, RBCall.Read 512, RBCall.Close] = some fin ∧
      readLen (streamCalls fin.r) = 13 ∧ fin.Total = 13 := by
  have hfit : fitsInt IntSize.w64 13 := by
    constructor <;> simp [minInt, maxInt]
  obtain ⟨_, fin, h0, _, _, h3⟩ :=
    C2_read_total IntSize.w64 bufferBody { st := goBytes "hello, server", calls := [] }
      [RBCall.Read 512, RBCall.Read 512, RBCall.Close]
  have hfin : fin = { r := some { st := [], calls :=
      [BodyEvent.read 512 (goBytes "hello, server") 13 none,
       BodyEvent.read 512 [] 0 (some EOF), BodyEvent.close none] }, Total := 13 } :=
    Option.some.inj (h0.symm.trans rfl)
  have hlen : readLen (streamCalls fin.r) = 13 := by rw [hfin]; rfl
  refine ⟨hfit, fin, h0, hlen, ?_⟩
  have h := h3 (by simpa [hlen] using hfit)
  simpa [hlen] using h

/-- C2, counterexample: on a platform with 32-bit int, two Reads into a buffer of
1 GiB from a stream that fills the buffer return 1073741824 each; Total ends at
-2147483648, while the sum of the counts is 2147483648. -/
theorem C2_read_total_wraps :
    (RequestBodyStats.calls IntSize.w32 zeroBody
        (NewRequestBodyStats (some { st := (), calls := [] }))
        [RBCall.Read 1073741824, RBCall.Read 1073741824]).map
      (fun fin => (fin.Total, readLen (streamCalls fin.r)))
      = some (-2147483648, 2147483648) := by
  simp only [RequestBodyStats.calls, RequestBodyStats.call, RequestBodyStats.Read,
    ReadCloser.callRead, zeroBody, NewRequestBodyStats, Option.map, streamCalls,
    List.nil_append, List.cons_append, readLen, wrapInt, minInt, IntSize.modulus]
  norm_num

/-- C3: after any sequence of Header, WriteHeader and Write calls on a new
ResponseWriterStats, ResponseCode is the argument of the last WriteHeader call,
200 when there was none, and the sink received the same codes in the same
order. -/
theorem C3_response_code {σ : Type} (sz : IntSize) (W : ResponseWriter σ) (w : Conn σ)
    (cs : List RWCall) :
    (ResponseWriterStats.calls sz W (NewResponseWriterStats w) cs).ResponseCode
      = (writeHeaderArgs cs).getLastD 200 ∧
    statusCodes
        ((ResponseWriterStats.calls sz W (NewResponseWriterStats w) cs).w.calls.drop
          w.calls.length)
      = writeHeaderArgs cs := by
  obtain ⟨evs, h1, _, h3, _, h5⟩ :=
    ResponseWriterStats.calls_effect sz W cs (NewResponseWriterStats w) (wrapInt_zero sz)
  have hw : (NewResponseWriterStats w).w.calls = w.calls := rfl
  rw [hw] at h1
  rw [h1, List.drop_left, h3, h5]
  simp [NewResponseWriterStats]

/-- C4: Write, Read and Close of the wrappers return what the one call they make
on the sink or the stream returned: the same count and error, the same stored
bytes, the same close error, and that call is the only one recorded. On a nil
stream Read and Close panic, as the call on the nil stream does. -/
theorem C4_results_pass_through {σ ρ : Type} (sz : IntSize) (W : ResponseWriter σ)
    (B : ReadCloser ρ) (c : ResponseWriterStats σ) (b : Stream ρ) (total : Int)
    (data : List UInt8) (buflen : Nat) :
    ((ResponseWriterStats.Write sz W c data).1 = (W.Write data (c.w.hdr, c.w.st)).1 ∧
      (ResponseWriterStats.Write sz W c data).2.w.calls
        = c.w.calls ++ [SinkEvent.write data (ResponseWriterStats.Write sz W c data).1.1
            (ResponseWriterStats.Write sz W c data).1.2]) ∧
    ((RequestBodyStats.Read sz B { r := some b, Total := total } buflen).map (fun p => p.1)
        = some (B.Read buflen b.st).1 ∧
      (RequestBodyStats.Read sz B { r := some b, Total := total } buflen).map
          (fun p => streamCalls p.2.r)
        = some (b.calls ++ [BodyEvent.read buflen (B.Read buflen b.st).1.1
            (B.Read buflen b.st).1.2.1 (B.Read buflen b.st).1.2.2])) ∧
    ((RequestBodyStats.Close B { r := some b, Total := total }).map (fun p => p.1)
        = some (B.Close b.st).1 ∧
      (RequestBodyStats.Close B { r := some b, Total := total }).map
          (fun p => streamCalls p.2.r)
        = some (b.calls ++ [BodyEvent.close (B.Close b.st).1])) ∧
    (RequestBodyStats.Read sz B { r := none, Total := total } buflen = none ∧
      RequestBodyStats.Close B { r := none, Total := total } = none) := by
  refine ⟨⟨rfl, rfl⟩, ⟨rfl, rfl⟩, ⟨rfl, rfl⟩, ⟨rfl, rfl⟩⟩

/-- C5, the code at the failing input: the delegate of TestLogging reads the 13
bytes of the body, sets status 400 and writes 22 bytes to a sink that takes two
bytes of a slice; the sink accepts 4 bytes, and the one line logged holds POST,
/, 400, 13 and 22. -/
theorem C5_logs_requested_bytes (sz : IntSize) :
    (LogHandler sz shortSink bufferBody (testHandler 8) [] 0 7 shortConn testRequest).map
        (fun res => (res.l, acceptedLen res.w.calls, res.w.st,
          readLen (streamCalls res.r.Body.r), res.r.Body.r.map (fun b => b.st)))
      = some ([{ format := "%v %v %v %v %v %v %v %v",
                 args := [LogArg.str "", LogArg.str "HTTP/1.1", LogArg.str "POST",
                   LogArg.str "/", LogArg.int 400, LogArg.dur 7, LogArg.int 13,
                   LogArg.int 22] }], 4, [32, 45, 104, 101], 13, some []) := by
  cases sz <;> rfl

/-- C6, as the code behaves: when neither the delegate nor the methods of the
sink change the Access-Control-Allow-Origin header, an invocation of the handler
of AccessControlHandler that returns leaves that header with the single value
access. -/
theorem C6_origin_header {σ ρ : Type} (W : ResponseWriter σ) (B : ReadCloser ρ)
    (h : Handler) (access : String) (w : Conn σ) (r : Request (Option (Stream ρ)))
    (s : Conn σ × Option (Stream ρ)) (hW : W.keeps "Access-Control-Allow-Origin")
    (hh : (h r.info).keeps "Access-Control-Allow-Origin")
    (hs : AccessControlHandler W B h access w r = some s) :
    s.1.hdr "Access-Control-Allow-Origin" = [access] :=
  AccessControlHandler_keeps W B h access w r s hW hh hs

/-- C6, witness: TestAccessControlHandler, a GET of / with origin * and a
delegate that writes hello, world to a recorder. -/
theorem C6_origin_header_witness :
    recorder.keeps "Access-Control-Allow-Origin" ∧
    (helloHandler getRequest.info).keeps "Access-Control-Allow-Origin" ∧
    ∃ s, AccessControlHandler recorder bufferBody helloHandler "*" NewRecorder getRequest
        = some s ∧
      s.1.hdr "Access-Control-Allow-Origin" = ["*"] ∧
      Header.Get "Access-Control-Allow-Origin" s.1.hdr = "*" :=
  ⟨recorder_keeps "Access-Control-Allow-Origin",
    helloHandler_keeps "Access-Control-Allow-Origin" getRequest.info,
    _, rfl,
    C6_origin_header recorder bufferBody helloHandler "*" NewRecorder getRequest _
      (recorder_keeps "Access-Control-Allow-Origin")
      (helloHandler_keeps "Access-Control-Allow-Origin" getRequest.info)
      rfl,
    rfl⟩

/-- C6, counterexample: a delegate that sets the header itself; after the
invocation with origin * the header holds the value of the delegate. -/
theorem C6_delegate_overrides_origin :
    (AccessControlHandler recorder bufferBody ownOriginHandler "*" NewRecorder
        getRequest).map (fun s => s.1.hdr "Access-Control-Allow-Origin")
      = some ["https://example.org"] := by
  rfl

/-- C7, as the code behaves: when neither the delegate nor the methods of the
sink change the Access-Control-Allow-Origin header, a second invocation on the
sink and the body the first one left leaves the header as the first one did,
with the single value access. -/
theorem C7_twice_as_once {σ ρ : Type} (W : ResponseWriter σ) (B : ReadCloser ρ)
    (h : Handler) (access : String) (w : Conn σ) (r : Request (Option (Stream ρ)))
    (s1 s2 : Conn σ × Option (Stream ρ)) (hW : W.keeps "Access-Control-Allow-Origin")
    (hh : (h r.info).keeps "Access-Control-Allow-Origin")
    (h1 : AccessControlHandler W B h access w r = some s1)
    (h2 : AccessControlHandler W B h access s1.1
      { RemoteAddr := r.RemoteAddr, Proto := r.Proto, Method := r.Method, URL := r.URL,
        Body := s1.2 } = some s2) :
    s2.1.hdr "Access-Control-Allow-Origin" = s1.1.hdr "Access-Control-Allow-Origin" ∧
    s2.1.hdr "Access-Control-Allow-Origin" = [access] := by
  have e1 := AccessControlHandler_keeps W B h access w r s1 hW hh h1
  have e2 := AccessControlHandler_keeps W B h access s1.1
    { RemoteAddr := r.RemoteAddr, Proto := r.Proto, Method := r.Method, URL := r.URL,
      Body := s1.2 } s2 hW hh h2
  exact ⟨e2.trans e1.symm, e2⟩

/-- C7, witness: the handler of TestAccessControlHandler invoked twice on the
same recorder. -/
theorem C7_twice_as_once_witness :
    recorder.keeps "Access-Control-Allow-Origin" ∧
    (helloHandler getRequest.info).keeps "Access-Control-Allow-Origin" ∧
    ∃ s1 s2,
      AccessControlHandler recorder bufferBody helloHandler "*" NewRecorder getRequest
        = some s1 ∧
      AccessControlHandler recorder bufferBody helloHandler "*" s1.1
        { RemoteAddr := getRequest.RemoteAddr, Proto := getRequest.Proto,
          Method := getRequest.Method, URL := getRequest.URL, Body := s1.2 } = some s2 ∧
      s2.1.hdr "Access-Control-Allow-Origin" = s1.1.hdr "Access-Control-Allow-Origin" ∧
      s2.1.hdr "Access-Control-Allow-Origin" = ["*"] :=
  ⟨recorder_keeps "Access-Control-Allow-Origin",
    helloHandler_keeps "Access-Control-Allow-Origin" getRequest.info,
    _, _, rfl, rfl,
    C7_twice_as_once recorder bufferBody helloHandler "*" NewRecorder getRequest _ _
      (recorder_keeps "Access-Control-Allow-Origin")
      (helloHandler_keeps "Access-Control-Allow-Origin" getRequest.info)
      rfl rfl⟩

/-- C7, counterexample: a delegate that adds a second allow-origin value when it
finds its own mark on the response; one invocation leaves the single value *,
two invocations in sequence leave two values. -/
theorem C7_second_invocation_differs :
    (AccessControlHandler recorder bufferBody seenHandler "*" NewRecorder
        getRequest).map (fun s => s.1.hdr "Access-Control-Allow-Origin") = some ["*"] ∧
    ((AccessControlHandler recorder bufferBody seenHandler "*" NewRecorder
        getRequest).bind (fun s =>
          AccessControlHandler recorder bufferBody seenHandler "*" s.1
            { RemoteAddr := getRequest.RemoteAddr, Proto := getRequest.Proto,
              Method := getRequest.Method, URL := getRequest.URL, Body := s.2 })).map
        (fun s => s.1.hdr "Access-Control-Allow-Origin")
      = some ["*", "https://example.org"] := by
  exact ⟨rfl, rfl⟩

/-- C8, as the code behaves: the delegate run by the handler of LogHandler
leaves the real sink and the original body stream (state, header map and the
calls received, with their arguments and results) as a run that reaches them
through the methods of http.ResponseWriter and io.ReadCloser alone; for a
delegate that makes no type assertion on w or r.Body and no nil test of r.Body
this is the run of the delegate on the sink and the stream themselves. Every
method of the wrappers makes the one matching call on what it wraps. In
TestLogging the recorder ends with status 400 and the body
" - echo: hello, server", as it does when testHandler is run on it directly. -/
theorem C8_instrumentation_transparent :
    (∀ (σ ρ : Type) (sz : IntSize) (W : ResponseWriter σ) (B : ReadCloser ρ) (h : Handler)
      (l : Logger) (start now : Int) (w : Conn σ) (r : Request (Option (Stream ρ))),
      (LogHandler sz W B h l start now w r).map (fun res => (res.w, res.r.Body.r))
        = exec (plainEnv W B) (h r.info) (w, r.Body)) ∧
    (∀ (σ ρ : Type) (sz : IntSize) (W : ResponseWriter σ) (B : ReadCloser ρ) (h : Handler)
      (l : Logger) (start now : Int) (w : Conn σ) (r : Request (Option (Stream ρ))),
      (h r.info).plain →
      (LogHandler sz W B h l start now w r).map (fun res => (res.w, res.r.Body.r))
        = exec (directEnv W B) (h r.info) (w, r.Body)) ∧
    (∀ (σ ρ : Type) (sz : IntSize) (W : ResponseWriter σ) (B : ReadCloser ρ)
      (c : ResponseWriterStats σ) (r : RequestBodyStats ρ) (code : Int)
      (data : List UInt8) (buflen : Nat),
      (ResponseWriterStats.Header W c).2.w = W.callHeader c.w ∧
      (ResponseWriterStats.Header W c).1 = c.w.hdr ∧
      (ResponseWriterStats.WriteHeader W c code).w = W.callWriteHeader code c.w ∧
      (ResponseWriterStats.Write sz W c data).2.w = (W.callWrite data c.w).2 ∧
      (RequestBodyStats.Read sz B r buflen).map (fun p => p.2.r)
        = r.r.map (fun b => some (B.callRead buflen b).2) ∧
      (RequestBodyStats.Close B r).map (fun p => p.2.r)
        = r.r.map (fun b => some (B.callClose b).2)) ∧
    ((LogHandler IntSize.w64 recorder bufferBody (testHandler 8) [] 0 5 NewRecorder
        testRequest).map (fun res => (res.w.st.Code, res.w.st.Body))
      = some (400, goBytes " - echo: hello, server") ∧
     (exec (directEnv recorder bufferBody) (testHandler 8 testRequest.info)
        (NewRecorder, testRequest.Body)).map (fun s => (s.1.st.Code, s.1.st.Body))
      = some (400, goBytes " - echo: hello, server")) := by
  have key : ∀ (σ ρ : Type) (sz : IntSize) (W : ResponseWriter σ) (B : ReadCloser ρ)
      (h : Handler) (l : Logger) (start now : Int) (w : Conn σ)
      (r : Request (Option (Stream ρ))),
      (LogHandler sz W B h l start now w r).map (fun res => (res.w, res.r.Body.r))
        = exec (plainEnv W B) (h r.info) (w, r.Body) := by
    intro σ ρ sz W B h l start now w r
    have hp := exec_statsEnv_proj sz W B (h r.info) (NewResponseWriterStats w)
      (NewRequestBodyStats r.Body)
    simp only [NewResponseWriterStats, NewRequestBodyStats] at hp
    rw [← hp]
    unfold LogHandler
    simp only [NewResponseWriterStats, NewRequestBodyStats]
    cases exec (statsEnv sz W B) (h r.info)
      ({ w := w, ResponseCode := 200, Total := 0 }, { r := r.Body, Total := 0 }) <;> rfl
  refine ⟨key, ?_, ?_, ?_, ?_⟩
  · intro σ ρ sz W B h l start now w r hplain
    rw [key, exec_plain W B _ hplain]
  · intro σ ρ sz W B c r code data buflen
    refine ⟨rfl, rfl, rfl, rfl, ?_, ?_⟩
    · cases hr : r.r <;> simp [RequestBodyStats.Read, hr]
    · cases hr : r.r <;> simp [RequestBodyStats.Close, hr]
  · rfl
  · rfl

/-- C8, witness: a delegate that reads the body and echoes it with w.Write makes
no type assertion; run through LogHandler on the recorder and the request of
TestLogging it leaves the recorder and the stream as its direct run does. -/
theorem C8_instrumentation_transparent_witness :
    (echoHandler 8 testRequest.info).plain ∧
    (LogHandler IntSize.w64 recorder bufferBody (echoHandler 8) [] 0 5 NewRecorder
        testRequest).map (fun res => (res.w, res.r.Body.r))
      = exec (directEnv recorder bufferBody) (echoHandler 8 testRequest.info)
          (NewRecorder, testRequest.Body) :=
  ⟨echoHandler_plain 8 testRequest.info,
    C8_instrumentation_transparent.2.1 Recorder (List UInt8) IntSize.w64 recorder
      bufferBody (echoHandler 8) [] 0 5 NewRecorder testRequest
      (echoHandler_plain 8 testRequest.info)⟩

/-- C8, counterexample: a delegate that writes "stream" and flushes when w is an
http.Flusher and writes "plain" otherwise. Invoked directly on a recorder it
leaves the body "stream" and Flushed set; invoked through LogHandler, where w
is a ResponseWriterStats without Flush, it leaves the body "plain". -/
theorem C8_flusher_sees_wrapper :
    (exec (directEnv recorder bufferBody) (flushHandler testRequest.info)
        (NewRecorder, testRequest.Body)).map (fun s => (s.1.st.Body, s.1.st.Flushed))
      = some (goBytes "stream", true) ∧
    (LogHandler IntSize.w64 recorder bufferBody flushHandler [] 0 5 NewRecorder
        testRequest).map (fun res => (res.w.st.Body, res.w.st.Flushed))
      = some (goBytes "plain", false) := by
  exact ⟨rfl, rfl⟩

/-- C9: the lines a sequence of invocations of one handler of LogHandler adds to
the log are, invocation by invocation, the status, request bytes and response
bytes of the calls the delegate made in that invocation alone, counted from
200, 0 and 0; a delegate that makes no call is logged as 200, 0, 0 whatever the
sink, the stream and the log have seen before. -/
theorem C9_fresh_stats :
    (∀ (σ ρ : Type) (sz : IntSize) (W : ResponseWriter σ) (B : ReadCloser ρ) (h : Handler)
      (l : Logger) (invs : List (Invocation σ ρ)),
      serveAll sz W B h l invs
        = (ownLines sz W B h invs).map (fun lines => l ++ lines)) ∧
    (∀ (σ ρ : Type) (sz : IntSize) (W : ResponseWriter σ) (B : ReadCloser ρ) (l : Logger)
      (start now : Int) (w : Conn σ) (r : Request (Option (Stream ρ))),
      (LogHandler sz W B (fun _ => Prog.ret) l start now w r).map (fun res => res.l)
        = some (l ++ [{ format := "%v %v %v %v %v %v %v %v",
                        args := [LogArg.str r.RemoteAddr, LogArg.str r.Proto,
                          LogArg.str r.Method, LogArg.str r.URL, LogArg.int 200,
                          LogArg.dur (now - start), LogArg.int 0, LogArg.int 0] }])) ∧
    (∀ (σ ρ : Type) (w : Conn σ) (b : Option (Stream ρ)),
      (NewResponseWriterStats w).ResponseCode = 200 ∧
      (NewResponseWriterStats w).Total = 0 ∧ (NewRequestBodyStats b).Total = 0) := by
  refine ⟨?_, ?_, ?_⟩
  · intro σ ρ sz W B h l invs
    exact serveAll_eq sz W B h invs l
  · intro σ ρ sz W B l start now w r
    rfl
  · intro σ ρ w b
    exact ⟨rfl, rfl, rfl⟩

/-- C10, as the code behaves: after any sequence of Header, WriteHeader and
Write calls on a new ResponseWriterStats, whatever the sink returns, Total is
the sum of the lengths of the slices passed to Write, wrapped around as an int.
When that sum lies in the range of int, Total is the sum itself and no call of
the sequence lowers it. Write adds the length of its slice as an int; Header
and WriteHeader leave Total as it is. -/
theorem C10_total_requested :
    (∀ (σ : Type) (sz : IntSize) (W : ResponseWriter σ) (w : Conn σ) (cs : List RWCall),
      (ResponseWriterStats.calls sz W (NewResponseWriterStats w) cs).Total
        = wrapInt sz (requestedLen cs)) ∧
    (∀ (σ : Type) (sz : IntSize) (W : ResponseWriter σ) (w : Conn σ) (cs : List RWCall),
      fitsInt sz (requestedLen cs) →
      (ResponseWriterStats.calls sz W (NewResponseWriterStats w) cs).Total
          = requestedLen cs ∧
      ∀ k : Nat,
        (ResponseWriterStats.calls sz W (NewResponseWriterStats w) (cs.take k)).Total
          ≤ (ResponseWriterStats.calls sz W (NewResponseWriterStats w)
              (cs.take (k + 1))).Total) ∧
    (∀ (σ : Type) (sz : IntSize) (W : ResponseWriter σ) (c : ResponseWriterStats σ)
      (data : List UInt8) (code : Int),
      (ResponseWriterStats.Write sz W c data).2.Total
        = wrapInt sz (c.Total + (data.length : Int)) ∧
      (ResponseWriterStats.WriteHeader W c code).Total = c.Total ∧
      (ResponseWriterStats.Header W c).2.Total = c.Total) := by
  have key : ∀ (σ : Type) (sz : IntSize) (W : ResponseWriter σ) (w : Conn σ)
      (cs : List RWCall),
      (ResponseWriterStats.calls sz W (NewResponseWriterStats w) cs).Total
        = wrapInt sz (requestedLen cs) := by
    intro σ sz W w cs
    obtain ⟨_, _, h2, _⟩ :=
      ResponseWriterStats.calls_effect sz W cs (NewResponseWriterStats w) (wrapInt_zero sz)
    rw [h2]
    simp [NewResponseWriterStats]
  have sub : ∀ (sz : IntSize) (cs : List RWCall) (k : Nat),
      fitsInt sz (requestedLen cs) → fitsInt sz (requestedLen (cs.take k)) := by
    intro sz cs k hfit
    have h0 := requestedLen_nonneg (cs.take k)
    have h1 := requestedLen_take_le_all cs k
    cases sz <;> simp only [fitsInt, minInt, maxInt] at hfit ⊢ <;> omega
  refine ⟨key, ?_, ?_⟩
  · intro σ sz W w cs hfit
    refine ⟨?_, ?_⟩
    · rw [key, wrapInt_of_fits sz _ hfit]
    · intro k
      rw [key, key, wrapInt_of_fits sz _ (sub sz cs k hfit),
        wrapInt_of_fits sz _ (sub sz cs (k + 1) hfit)]
      exact requestedLen_take_le cs k
  · intro σ sz W c data code
    exact ⟨rfl, rfl, rfl⟩

/-- C10, witness: the calls TestLogging makes on the wrapper, 22 bytes in three
Writes; 22 is in the range of int. -/
theorem C10_total_requested_witness :
    fitsInt IntSize.w64
      (requestedLen [RWCall.WriteHeader 400, RWCall.Header, RWCall.Write (goBytes ""),
        RWCall.Write (goBytes " - echo: "), RWCall.Write (goBytes "hello, server")]) ∧
    (ResponseWriterStats.calls IntSize.w64 recorder (NewResponseWriterStats NewRecorder)
        [RWCall.WriteHeader 400, RWCall.Header, RWCall.Write (goBytes ""),
         RWCall.Write (goBytes " - echo: "), RWCall.Write (goBytes "hello, server")]).Total
      = 22 :=
  ⟨test_writes_fit,
    (C10_total_requested.2.1 Recorder IntSize.w64 recorder NewRecorder
      [RWCall.WriteHeader 400, RWCall.Header, RWCall.Write (goBytes ""),
       RWCall.Write (goBytes " - echo: "), RWCall.Write (goBytes "hello, server")]
      test_writes_fit).1⟩

/-- C10, counterexample: on a platform with 32-bit int, two Writes of a slice of
1 GiB through a new ResponseWriterStats leave Total at -2147483648, below the
1073741824 it held after the first Write, while the lengths sum to
2147483648. -/
theorem C10_total_wraps :
    (ResponseWriterStats.calls IntSize.w32 recorder (NewResponseWriterStats NewRecorder)
        [RWCall.Write (List.replicate 1073741824 0)]).Total = 1073741824 ∧
    (ResponseWriterStats.calls IntSize.w32 recorder (NewResponseWriterStats NewRecorder)
        [RWCall.Write (List.replicate 1073741824 0),
         RWCall.Write (List.replicate 1073741824 0)]).Total = -2147483648 ∧
    requestedLen [RWCall.Write (List.replicate 1073741824 0),
        RWCall.Write (List.replicate 1073741824 0)] = 2147483648 := by
  simp only [ResponseWriterStats.calls, List.foldl, ResponseWriterStats.call,
    ResponseWriterStats.Write, NewResponseWriterStats, requestedLen,
    List.length_replicate, wrapInt, minInt, IntSize.modulus]
  norm_num

end httputil
